import Mathlib

/-!
SavvyCAN `CANConnection`: per-bus store, filter engine, send path, lifecycle.

A shallow embedding of `src/connections/canconnection.cpp`.

* The object is a record of the members the modelled methods read or write
  (`mNumBuses`, `mStarted`, `mThread_p`, `mBusData_p`); the queue, port, type,
  status and capture-suspended members are touched by none of them and are left out.
* `mBusData_p` (a heap array of `BusData`) is a map from array index to `BusData`;
  every access in the source is guarded by `0 <= pBusId < mNumBuses`.
* `int` indices are `Int`, `quint32` ids and masks are `Nat` (only `&` and `==` are
  applied to them, so no wrap-around can occur).
* The virtual `pi*` methods are supplied by a `Backend` record acting on a backend
  state `σ`; every call of one is appended to the ghost member `trace` together with
  the thread that executes it.
* `QThread::currentThread()` is the explicit argument `cur` of each method.
* A method that hands its call over to the dedicated thread blocks until that thread
  has run it; such a method returns an `Option`, `none` standing for a call that never
  returns because the dedicated thread is not running.
-/

namespace SavvyCAN

/-- Identity of an execution context (a `QThread` object). -/
abbrev Thread := Nat

/-- Modelled from the spec: the declaration of `CANFlt` lives in a header that is not
under `src/`; the source reads its members `id`, `mask` (both `quint32`) and `notify`. -/
structure CANFlt where
  id : Nat
  mask : Nat
  notify : Bool
deriving DecidableEq, Repr

/-- Life cycle of the `QThread` object held in `mThread_p`: created and never started,
running its event loop, or finished. -/
inductive ThreadState where
  | notStarted
  | running
  | finished
deriving DecidableEq, Repr

/-- Per-bus record, `struct BusData` (source lines 5-10). -/
structure BusData (CANBus : Type) where
  mBus : CANBus
  mConfigured : Bool
  mFilters : List CANFlt
  mFilterOut : Bool

/-- One call of a virtual backend method, with its arguments (and its result for the
value-returning ones). -/
inductive HookCall (CANBus CANFrame : Type) where
  | piStarted
  | piStop
  | piSuspend (pSuspend : Bool)
  | piGetBusSettings (pBusIdx : Int) (ret : Bool)
  | piSetBusSettings (pBusIdx : Int) (pBus : CANBus)
  | piSendFrame (pFrame : CANFrame) (ret : Bool)
  | piSendFrames (pFrames : List CANFrame)
  | piSetFilters (pBusId : Int) (pFilters : List CANFlt)

/-- Recognises a call of `piStop`. -/
def HookCall.isStop {CANBus CANFrame : Type} : HookCall CANBus CANFrame → Bool
  | .piStop => true
  | _ => false

/-- A trace entry: which backend method ran, and on which thread. -/
structure Event (CANBus CANFrame : Type) where
  call : HookCall CANBus CANFrame
  thread : Thread

/-- The backend-supplied virtual methods, as transformers of the backend state `σ`.
`piSendFrames` and `piSetFilters` have default bodies in the source; an absent
`piSendFramesOverride` selects the default `piSendFrames`, and the default
`piSetFilters` is the identity. Backend methods act on the backend state only. -/
structure Backend (σ CANBus CANFrame : Type) where
  piStarted : σ → σ
  piStop : σ → σ
  piSuspend : Bool → σ → σ
  piGetBusSettings : Int → CANBus → σ → (Bool × CANBus) × σ
  piSetBusSettings : Int → CANBus → σ → σ
  piSendFrame : CANFrame → σ → Bool × σ
  piSendFramesOverride : Option (List CANFrame → σ → Bool × σ)
  piSetFilters : Int → List CANFlt → σ → σ

/-- The connection object. `threadState` is the state of the `QThread` in `mThread_p`;
`hooks`, `backend` and `trace` are the virtual methods, the state they act on, and the
log of their calls. -/
structure CANConnection (σ CANBus CANFrame : Type) where
  mNumBuses : Int
  mStarted : Bool
  mThread_p : Option Thread
  mBusData_p : Nat → BusData CANBus
  threadState : ThreadState
  hooks : Backend σ CANBus CANFrame
  backend : σ
  trace : List (Event CANBus CANFrame)

namespace CANConnection

variable {σ CANBus CANFrame : Type} {α : Type}

/-- The constructor `CANConnection::CANConnection` (source lines 13-48): every bus
starts with `mConfigured = false`, `mFilterOut = false`, an empty `mFilters` and a
default-constructed `mBus` (`dflt`); with `pUseThread` a new `QThread` (`fresh`) is
allocated, not yet running. -/
def construct (hooks : Backend σ CANBus CANFrame) (b0 : σ) (dflt : CANBus) (fresh : Thread)
    (pNumBuses : Int) (pUseThread : Bool) : CANConnection σ CANBus CANFrame :=
  { mNumBuses := pNumBuses
    mStarted := false
    mThread_p := if pUseThread then some fresh else none
    mBusData_p := fun _ =>
      { mBus := dflt, mConfigured := false, mFilters := [], mFilterOut := false }
    threadState := .notStarted
    hooks := hooks
    backend := b0
    trace := [] }

/-- Store `b` at index `k` of the array `mBusData_p`. -/
def setBus (s : CANConnection σ CANBus CANFrame) (k : Nat) (b : BusData CANBus) :
    CANConnection σ CANBus CANFrame :=
  { s with mBusData_p := fun j => if j = k then b else s.mBusData_p j }

/-- Record a call of a backend method executed on thread `cur`, leaving the backend in
state `b`. -/
def enter (s : CANConnection σ CANBus CANFrame) (cur : Thread)
    (c : HookCall CANBus CANFrame) (b : σ) : CANConnection σ CANBus CANFrame :=
  { s with backend := b, trace := s.trace ++ [⟨c, cur⟩] }

/-- The test `mThread_p && (mThread_p != QThread::currentThread())`. -/
def offThread (s : CANConnection σ CANBus CANFrame) (cur : Thread) : Bool :=
  match s.mThread_p with
  | some t => t != cur
  | none => false

/-- The owning execution context seen from a caller on thread `cur`: the dedicated
thread `mThread_p` when there is one, otherwise the caller's own thread. -/
def owningThread (s : CANConnection σ CANBus CANFrame) (cur : Thread) : Thread :=
  s.mThread_p.getD cur

/-- The test `mThread_p->isFinished()`. -/
def isFinished (s : CANConnection σ CANBus CANFrame) : Bool :=
  decide (s.threadState = .finished)

/-- The call `QMetaObject::invokeMethod(this, slot, Qt::BlockingQueuedConnection, ...)`:
the call is queued for the thread `mThread_p` and the caller blocks until that thread has
run it. While `mThread_p` is running (the object was moved to it by `start()`) the slot
is executed there and its result handed back; while it is not running (never started, or
finished) the queued call is never executed and the caller never returns: `none`.
The slot is the calling method itself; run on `mThread_p` its thread test is false, so
`slot` is the part of the method after that test. -/
def invokeMethod (s : CANConnection σ CANBus CANFrame) (cur : Thread)
    (slot : CANConnection σ CANBus CANFrame → Thread → α) : Option α :=
  if s.threadState = .running then some (slot s (s.owningThread cur)) else none

/-- The call is executed by the owning context: the caller is on it already (no
dedicated thread, or the caller is that thread), or the dedicated thread is running and
takes the call over. -/
def reachesOwner (s : CANConnection σ CANBus CANFrame) (cur : Thread) : Bool :=
  !s.offThread cur || decide (s.threadState = .running)

/-! ### Backend methods -/

def piStarted (s : CANConnection σ CANBus CANFrame) (cur : Thread) :
    CANConnection σ CANBus CANFrame :=
  s.enter cur .piStarted (s.hooks.piStarted s.backend)

def piStop (s : CANConnection σ CANBus CANFrame) (cur : Thread) :
    CANConnection σ CANBus CANFrame :=
  s.enter cur .piStop (s.hooks.piStop s.backend)

def piSuspend (s : CANConnection σ CANBus CANFrame) (cur : Thread) (pSuspend : Bool) :
    CANConnection σ CANBus CANFrame :=
  s.enter cur (.piSuspend pSuspend) (s.hooks.piSuspend pSuspend s.backend)

def piGetBusSettings (s : CANConnection σ CANBus CANFrame) (cur : Thread) (pBusIdx : Int)
    (pBus : CANBus) : (Bool × CANBus) × CANConnection σ CANBus CANFrame :=
  let r := s.hooks.piGetBusSettings pBusIdx pBus s.backend
  (r.1, s.enter cur (.piGetBusSettings pBusIdx r.1.1) r.2)

def piSetBusSettings (s : CANConnection σ CANBus CANFrame) (cur : Thread) (pBusIdx : Int)
    (pBus : CANBus) : CANConnection σ CANBus CANFrame :=
  s.enter cur (.piSetBusSettings pBusIdx pBus) (s.hooks.piSetBusSettings pBusIdx pBus s.backend)

def piSendFrame (s : CANConnection σ CANBus CANFrame) (cur : Thread) (pFrame : CANFrame) :
    Bool × CANConnection σ CANBus CANFrame :=
  let r := s.hooks.piSendFrame pFrame s.backend
  (r.1, s.enter cur (.piSendFrame pFrame r.1) r.2)

def piSetFilters (s : CANConnection σ CANBus CANFrame) (cur : Thread) (pBusId : Int)
    (pFilters : List CANFlt) : CANConnection σ CANBus CANFrame :=
  s.enter cur (.piSetFilters pBusId pFilters) (s.hooks.piSetFilters pBusId pFilters s.backend)

/-- The `foreach` loop of the default `CANConnection::piSendFrames` (source lines
311-317). -/
def piSendFramesLoop (cur : Thread) :
    CANConnection σ CANBus CANFrame → List CANFrame → Bool × CANConnection σ CANBus CANFrame
  | s, [] => (true, s)
  | s, frame :: rest =>
    let r := s.piSendFrame cur frame
    if !r.1 then (false, r.2) else piSendFramesLoop cur r.2 rest

/-- The virtual `piSendFrames`: the backend override when there is one, otherwise the
default body (source lines 309-318). -/
def piSendFrames (s : CANConnection σ CANBus CANFrame) (cur : Thread)
    (pFrames : List CANFrame) : Bool × CANConnection σ CANBus CANFrame :=
  let s1 := { s with trace := s.trace ++ [⟨.piSendFrames pFrames, cur⟩] }
  match s.hooks.piSendFramesOverride with
  | some f =>
    let r := f pFrames s.backend
    (r.1, { s1 with backend := r.2 })
  | none => piSendFramesLoop cur s1 pFrames

/-! ### Lifecycle (source lines 68-125) -/

/-- The method `start()`. Off the owning thread it moves the object to `mThread_p`,
connects `started()` to `start()` and starts the thread, which is then running, and
returns without waiting; the slot later runs `start` with `cur = mThread_p`. -/
def start (s : CANConnection σ CANBus CANFrame) (cur : Thread) :
    CANConnection σ CANBus CANFrame :=
  if s.offThread cur then
    { s with threadState := .running }
  else
    ({ s with mStarted := true }).piStarted cur

def suspend (s : CANConnection σ CANBus CANFrame) (cur : Thread) (pSuspend : Bool) :
    Option (CANConnection σ CANBus CANFrame) :=
  if s.offThread cur then
    s.invokeMethod cur (fun s1 t => s1.piSuspend t pSuspend)
  else
    some (s.piSuspend cur pSuspend)

/-- The method `stop()`. After `quit()` and `wait()` the owning thread is finished. -/
def stop (s : CANConnection σ CANBus CANFrame) (cur : Thread) :
    Option (CANConnection σ CANBus CANFrame) :=
  if s.offThread cur && s.mStarted then
    if !s.isFinished then
      (s.invokeMethod cur (fun s1 t => s1.piStop t)).map
        (fun s1 => { s1 with threadState := .finished })
    else
      some s
  else
    some (s.piStop cur)

/-! ### Bus settings and send path (source lines 128-191) -/

def getBusSettings (s : CANConnection σ CANBus CANFrame) (cur : Thread) (pBusIdx : Int)
    (pBus : CANBus) : Option ((Bool × CANBus) × CANConnection σ CANBus CANFrame) :=
  if s.offThread cur then
    s.invokeMethod cur (fun s1 t => s1.piGetBusSettings t pBusIdx pBus)
  else
    some (s.piGetBusSettings cur pBusIdx pBus)

def setBusSettings (s : CANConnection σ CANBus CANFrame) (cur : Thread) (pBusIdx : Int)
    (pBus : CANBus) : Option (CANConnection σ CANBus CANFrame) :=
  if s.offThread cur then
    s.invokeMethod cur (fun s1 t => s1.piSetBusSettings t pBusIdx pBus)
  else
    some (s.piSetBusSettings cur pBusIdx pBus)

def sendFrame (s : CANConnection σ CANBus CANFrame) (cur : Thread) (pFrame : CANFrame) :
    Option (Bool × CANConnection σ CANBus CANFrame) :=
  if s.offThread cur then
    s.invokeMethod cur (fun s1 t => s1.piSendFrame t pFrame)
  else
    some (s.piSendFrame cur pFrame)

def sendFrames (s : CANConnection σ CANBus CANFrame) (cur : Thread)
    (pFrames : List CANFrame) : Option (Bool × CANConnection σ CANBus CANFrame) :=
  if s.offThread cur then
    s.invokeMethod cur (fun s1 t => s1.piSendFrames t pFrames)
  else
    some (s.piSendFrames cur pFrames)

/-! ### Per-bus store (source lines 194-227) -/

def getNumBuses (s : CANConnection σ CANBus CANFrame) : Int :=
  s.mNumBuses

def isConfigured (s : CANConnection σ CANBus CANFrame) (pBusId : Int) : Bool :=
  if pBusId < 0 ∨ pBusId ≥ s.getNumBuses then false
  else (s.mBusData_p pBusId.toNat).mConfigured

def setConfigured (s : CANConnection σ CANBus CANFrame) (pBusId : Int) (pConfigured : Bool) :
    CANConnection σ CANBus CANFrame :=
  if pBusId < 0 ∨ pBusId ≥ s.getNumBuses then s
  else s.setBus pBusId.toNat { s.mBusData_p pBusId.toNat with mConfigured := pConfigured }

/-- The method `getBusConfig(pBusId, pBus)`: the result and the value of the reference
argument `pBus` after the call. -/
def getBusConfig (s : CANConnection σ CANBus CANFrame) (pBusId : Int) (pBus : CANBus) :
    Bool × CANBus :=
  if pBusId < 0 ∨ pBusId ≥ s.getNumBuses ∨ !s.isConfigured pBusId then (false, pBus)
  else (true, (s.mBusData_p pBusId.toNat).mBus)

def setBusConfig (s : CANConnection σ CANBus CANFrame) (pBusId : Int) (pBus : CANBus) :
    CANConnection σ CANBus CANFrame :=
  if pBusId < 0 ∨ pBusId ≥ s.getNumBuses then s
  else
    let s1 := s.setBus pBusId.toNat { s.mBusData_p pBusId.toNat with mConfigured := true }
    s1.setBus pBusId.toNat { s1.mBusData_p pBusId.toNat with mBus := pBus }

/-! ### Filter engine (source lines 261-306) -/

/-- The part of `setFilters` after the thread test (source lines 275-287). -/
def setFiltersBody (pBusId : Int) (pFilters : List CANFlt) (pFilterOut : Bool)
    (s : CANConnection σ CANBus CANFrame) (cur : Thread) :
    Bool × CANConnection σ CANBus CANFrame :=
  if pBusId < 0 ∨ pBusId ≥ s.getNumBuses then (false, s)
  else
    let s1 := s.setBus pBusId.toNat { s.mBusData_p pBusId.toNat with mFilters := pFilters }
    let s2 := s1.setBus pBusId.toNat { s1.mBusData_p pBusId.toNat with mFilterOut := pFilterOut }
    if pFilterOut then (true, s2.piSetFilters cur pBusId pFilters) else (true, s2)

def setFilters (s : CANConnection σ CANBus CANFrame) (cur : Thread) (pBusId : Int)
    (pFilters : List CANFlt) (pFilterOut : Bool) :
    Option (Bool × CANConnection σ CANBus CANFrame) :=
  if s.offThread cur then
    s.invokeMethod cur (setFiltersBody pBusId pFilters pFilterOut)
  else
    some (setFiltersBody pBusId pFilters pFilterOut s cur)

/-- The `foreach` loop of `discard` and the final `return mFilterOut` (source lines
296-305): the returned flag and the value of the reference argument `pNotify`. -/
def discardLoop (pId : Nat) (mFilterOut : Bool) : List CANFlt → Bool → Bool × Bool
  | [], pNotify => (mFilterOut, pNotify)
  | filter :: rest, pNotify =>
    if filter.id &&& filter.mask = pId &&& filter.mask then
      (false, if filter.notify then true else pNotify)
    else discardLoop pId mFilterOut rest pNotify

/-- The method `discard(pBusId, pId, pNotify)`: the result and the value of the
reference argument `pNotify` after the call. -/
def discard (s : CANConnection σ CANBus CANFrame) (pBusId : Int) (pId : Nat)
    (pNotify : Bool) : Bool × Bool :=
  if pBusId < 0 ∨ pBusId ≥ s.getNumBuses then (true, pNotify)
  else
    discardLoop pId (s.mBusData_p pBusId.toNat).mFilterOut
      (s.mBusData_p pBusId.toNat).mFilters pNotify

end CANConnection

/-! ### Sequences of calls -/

/-- A call of one of the public per-bus operations; `setFilters` carries the calling
thread. -/
inductive BusOp (CANBus : Type) where
  | setBusConfig (pBusId : Int) (pBus : CANBus)
  | setConfigured (pBusId : Int) (pConfigured : Bool)
  | setFilters (cur : Thread) (pBusId : Int) (pFilters : List CANFlt) (pFilterOut : Bool)
  | getBusConfig (pBusId : Int) (pBus : CANBus)
  | isConfigured (pBusId : Int)

/-- The object after one per-bus call; `none` when the call never returns. -/
def BusOp.run {σ CANBus CANFrame : Type} :
    BusOp CANBus → CANConnection σ CANBus CANFrame →
      Option (CANConnection σ CANBus CANFrame)
  | .setBusConfig i cfg, s => some (s.setBusConfig i cfg)
  | .setConfigured i b, s => some (s.setConfigured i b)
  | .setFilters cur i fl ex, s => (s.setFilters cur i fl ex).map (fun r => r.2)
  | .getBusConfig _ _, s => some s
  | .isConfigured _, s => some s

/-- The object after a sequence of per-bus calls, first call first; `none` when one of
the calls never returns. -/
def runOps {σ CANBus CANFrame : Type} (s : CANConnection σ CANBus CANFrame) :
    List (BusOp CANBus) → Option (CANConnection σ CANBus CANFrame)
  | [] => some s
  | op :: rest => (op.run s).bind (fun s1 => runOps s1 rest)

/-- A call of one of the public operations that reach a backend method. -/
inductive Op (CANBus CANFrame : Type) where
  | start
  | suspend (pSuspend : Bool)
  | stop
  | getBusSettings (pBusIdx : Int) (pBus : CANBus)
  | setBusSettings (pBusIdx : Int) (pBus : CANBus)
  | sendFrame (pFrame : CANFrame)
  | sendFrames (pFrames : List CANFrame)
  | setFilters (pBusId : Int) (pFilters : List CANFlt) (pFilterOut : Bool)

/-- Recognises the operation `stop`. -/
def Op.isStop {CANBus CANFrame : Type} : Op CANBus CANFrame → Bool
  | .stop => true
  | _ => false

/-- The object after the operation was called from thread `cur`; `none` when the call
never returns. -/
def Op.run {σ CANBus CANFrame : Type} :
    Op CANBus CANFrame → CANConnection σ CANBus CANFrame → Thread →
      Option (CANConnection σ CANBus CANFrame)
  | .start, s, cur => some (s.start cur)
  | .suspend p, s, cur => s.suspend cur p
  | .stop, s, cur => s.stop cur
  | .getBusSettings i b, s, cur => (s.getBusSettings cur i b).map (fun r => r.2)
  | .setBusSettings i b, s, cur => s.setBusSettings cur i b
  | .sendFrame f, s, cur => (s.sendFrame cur f).map (fun r => r.2)
  | .sendFrames fs, s, cur => (s.sendFrames cur fs).map (fun r => r.2)
  | .setFilters i fl ex, s, cur => (s.setFilters cur i fl ex).map (fun r => r.2)

/-- Number of `piStop` calls in a trace. -/
def stopCount {CANBus CANFrame : Type} (tr : List (Event CANBus CANFrame)) : Nat :=
  (tr.filter (fun e => e.call.isStop)).length

/-- The filter rule matches the frame id: `(filter.id & filter.mask) == (pId & filter.mask)`. -/
def CANFlt.matchesId (r : CANFlt) (pId : Nat) : Prop :=
  r.id &&& r.mask = pId &&& r.mask

/-- Some rule matches the frame id, and the first one that does has its notify flag set. -/
def FirstMatchNotifies (rules : List CANFlt) (pId : Nat) : Prop :=
  ∃ before r after, rules = before ++ r :: after ∧
    (∀ q ∈ before, ¬ q.matchesId pId) ∧ r.matchesId pId ∧ r.notify = true

/-- The backend state after `piSendFrame` has been called on the frames of `sent`, one
after the other starting from the state `b`. -/
def backendAfter {σ CANFrame : Type} (piSendFrame : CANFrame → σ → Bool × σ) (b : σ)
    (sent : List CANFrame) : σ :=
  sent.foldl (fun acc f => (piSendFrame f acc).2) b

/-- The backend method `piSendFrame`, called on the frames of the list in order from the
backend state `b`, returns true for every one of them. -/
def AllAccepted {σ CANFrame : Type} (piSendFrame : CANFrame → σ → Bool × σ) (b : σ)
    (frames : List CANFrame) : Prop :=
  ∀ sent f rest, frames = sent ++ f :: rest →
    (piSendFrame f (backendAfter piSendFrame b sent)).1 = true

/-- A backend whose methods do nothing and whose sends succeed, on a trivial state. -/
def idleBackend : Backend Unit Nat Nat :=
  { piStarted := id
    piStop := id
    piSuspend := fun _ => id
    piGetBusSettings := fun _ b u => ((true, b), u)
    piSetBusSettings := fun _ _ => id
    piSendFrame := fun _ u => (true, u)
    piSendFramesOverride := none
    piSetFilters := fun _ _ => id }

/-- A backend whose state counts the calls of `piSendFrame` and whose single-frame send
succeeds exactly on frames other than `2`. -/
def rejectTwo : Backend Nat Nat Nat :=
  { piStarted := id
    piStop := id
    piSuspend := fun _ => id
    piGetBusSettings := fun _ b u => ((true, b), u)
    piSetBusSettings := fun _ _ => id
    piSendFrame := fun f u => (f != 2, u + 1)
    piSendFramesOverride := none
    piSetFilters := fun _ _ => id }

/-- A connection with `n` buses and no dedicated thread, as constructed. -/
def plain (n : Int) : CANConnection Unit Nat Nat :=
  CANConnection.construct idleBackend () 0 7 n false

/-- A connection with `n` buses and the dedicated thread `7`, as constructed. -/
def threaded (n : Int) : CANConnection Unit Nat Nat :=
  CANConnection.construct idleBackend () 0 7 n true

/-- A one-bus connection without a dedicated thread whose backend rejects frame `2`. -/
def rejecting : CANConnection Nat Nat Nat :=
  CANConnection.construct rejectTwo 0 0 7 1 false

/-- A two-bus connection with the dedicated thread `7` that has been started: the state
after `start()` was called from thread `0` and the slot `start()` ran on thread `7`. -/
def running : CANConnection Unit Nat Nat :=
  ((threaded 2).start 0).start 7

/-! ### Helper lemmas -/

namespace CANConnection

variable {σ CANBus CANFrame : Type} {α : Type}

theorem owningThread_of_not_offThread (s : CANConnection σ CANBus CANFrame) (cur : Thread)
    (h : s.offThread cur = false) : s.owningThread cur = cur := by
  unfold offThread at h
  unfold owningThread
  cases hm : s.mThread_p with
  | none => simp
  | some t => simp [hm] at h; simp [h]

theorem owningThread_of_thread (s : CANConnection σ CANBus CANFrame) (cur t : Thread)
    (h : s.mThread_p = some t) : s.owningThread cur = t := by
  simp [owningThread, h]

/-- The thread test followed by the blocking hand-over: the call returns exactly when
it reaches the owning context, and then the slot has run on the owning thread. -/
theorem dispatch_eq (s : CANConnection σ CANBus CANFrame) (cur : Thread)
    (slot : CANConnection σ CANBus CANFrame → Thread → α) :
    (if s.offThread cur = true then s.invokeMethod cur slot else some (slot s cur)) =
      if s.reachesOwner cur = true then some (slot s (s.owningThread cur)) else none := by
  cases h : s.offThread cur with
  | true =>
    by_cases hr : s.threadState = .running <;> simp [invokeMethod, reachesOwner, h, hr]
  | false => simp [reachesOwner, h, owningThread_of_not_offThread s cur h]

theorem reachesOwner_of_not_offThread (s : CANConnection σ CANBus CANFrame) (cur : Thread)
    (h : s.offThread cur = false) : s.reachesOwner cur = true := by
  simp [reachesOwner, h]

theorem offThread_of_not_reachesOwner (s : CANConnection σ CANBus CANFrame) (cur : Thread)
    (h : s.reachesOwner cur = false) :
    s.offThread cur = true ∧ s.threadState ≠ .running := by
  simp [reachesOwner] at h
  exact h

theorem setFilters_eq_body (s : CANConnection σ CANBus CANFrame) (cur : Thread) (i : Int)
    (rules : List CANFlt) (ex : Bool) :
    s.setFilters cur i rules ex =
      if s.reachesOwner cur = true then
        some (setFiltersBody i rules ex s (s.owningThread cur))
      else none := by
  unfold setFilters
  exact dispatch_eq s cur (setFiltersBody i rules ex)

theorem setFilters_of_reaches (s : CANConnection σ CANBus CANFrame) (cur : Thread) (i : Int)
    (rules : List CANFlt) (ex : Bool) (hr : s.reachesOwner cur = true) :
    s.setFilters cur i rules ex = some (setFiltersBody i rules ex s (s.owningThread cur)) := by
  rw [setFilters_eq_body, if_pos hr]

theorem setFilters_some (s : CANConnection σ CANBus CANFrame) (cur : Thread) (i : Int)
    (rules : List CANFlt) (ex : Bool) (p : Bool × CANConnection σ CANBus CANFrame)
    (h : s.setFilters cur i rules ex = some p) :
    s.reachesOwner cur = true ∧ p = setFiltersBody i rules ex s (s.owningThread cur) := by
  rw [setFilters_eq_body] at h
  by_cases hr : s.reachesOwner cur = true
  · rw [if_pos hr] at h
    exact ⟨hr, (Option.some.inj h).symm⟩
  · rw [if_neg hr] at h
    exact absurd h (by simp)

theorem setFiltersBody_valid (s : CANConnection σ CANBus CANFrame) (th : Thread) (i : Int)
    (rules : List CANFlt) (ex : Bool) (h0 : 0 ≤ i) (h1 : i < s.mNumBuses) :
    (setFiltersBody i rules ex s th).1 = true ∧
    (setFiltersBody i rules ex s th).2.mNumBuses = s.mNumBuses ∧
    (setFiltersBody i rules ex s th).2.mBusData_p =
      (fun j => if j = i.toNat then
        { s.mBusData_p i.toNat with mFilters := rules, mFilterOut := ex }
        else s.mBusData_p j) ∧
    (setFiltersBody i rules ex s th).2.trace =
      s.trace ++ (if ex then [⟨.piSetFilters i rules, th⟩] else []) := by
  have hg : ¬ (i < 0 ∨ i ≥ s.mNumBuses) := by omega
  cases ex <;>
    simp [setFiltersBody, getNumBuses, hg, setBus, piSetFilters, enter] <;>
    (funext j; by_cases hj : j = i.toNat <;> simp [hj])

theorem setFiltersBody_invalid (s : CANConnection σ CANBus CANFrame) (th : Thread) (i : Int)
    (rules : List CANFlt) (ex : Bool) (h : i < 0 ∨ s.mNumBuses ≤ i) :
    setFiltersBody i rules ex s th = (false, s) := by
  have hg : i < 0 ∨ i ≥ s.mNumBuses := h
  simp [setFiltersBody, getNumBuses, hg]

theorem setFiltersBody_other (s : CANConnection σ CANBus CANFrame) (th : Thread) (i j : Int)
    (rules : List CANFlt) (ex : Bool) (h0 : 0 ≤ i) (hj : 0 ≤ j) (hij : i ≠ j) :
    (setFiltersBody i rules ex s th).2.mBusData_p j.toNat = s.mBusData_p j.toNat := by
  by_cases h1 : i < s.mNumBuses
  · have hne : ¬ (j.toNat = i.toNat) := by omega
    simp [(setFiltersBody_valid s th i rules ex h0 h1).2.2.1, hne]
  · rw [setFiltersBody_invalid s th i rules ex (Or.inr (by omega))]

theorem setFiltersBody_mNumBuses (s : CANConnection σ CANBus CANFrame) (th : Thread)
    (i : Int) (rules : List CANFlt) (ex : Bool) :
    (setFiltersBody i rules ex s th).2.mNumBuses = s.mNumBuses := by
  by_cases h : 0 ≤ i ∧ i < s.mNumBuses
  · exact (setFiltersBody_valid s th i rules ex h.1 h.2).2.1
  · rw [setFiltersBody_invalid s th i rules ex (by omega)]

/-- The method `setFilters` keeps the configuration and the configured flag of every
bus. -/
theorem setFiltersBody_config (s : CANConnection σ CANBus CANFrame) (th : Thread)
    (i : Int) (rules : List CANFlt) (ex : Bool) (k : Nat) :
    ((setFiltersBody i rules ex s th).2.mBusData_p k).mBus = (s.mBusData_p k).mBus ∧
    ((setFiltersBody i rules ex s th).2.mBusData_p k).mConfigured =
      (s.mBusData_p k).mConfigured := by
  by_cases h : 0 ≤ i ∧ i < s.mNumBuses
  · rw [(setFiltersBody_valid s th i rules ex h.1 h.2).2.2.1]
    by_cases hk : k = i.toNat <;> simp [hk]
  · rw [setFiltersBody_invalid s th i rules ex (by omega)]
    exact ⟨rfl, rfl⟩

theorem setFiltersBody_threads (s : CANConnection σ CANBus CANFrame) (th : Thread) (i : Int)
    (rules : List CANFlt) (ex : Bool) :
    ∃ added, (setFiltersBody i rules ex s th).2.trace = s.trace ++ added ∧
      ∀ e ∈ added, e.thread = th := by
  by_cases h : 0 ≤ i ∧ i < s.mNumBuses
  · refine ⟨_, (setFiltersBody_valid s th i rules ex h.1 h.2).2.2.2, ?_⟩
    intro e he
    cases ex with
    | true => simp at he; rw [he]
    | false => simp at he
  · rw [setFiltersBody_invalid s th i rules ex (by omega)]
    exact ⟨[], by simp, by simp⟩

theorem discardLoop_of_match (pId : Nat) (ex : Bool) :
    ∀ (rules : List CANFlt) (n : Bool), (∃ r ∈ rules, r.id &&& r.mask = pId &&& r.mask) →
      (discardLoop pId ex rules n).1 = false := by
  intro rules
  induction rules with
  | nil => intro n h; simp at h
  | cons a rest ih =>
    intro n h
    by_cases ha : a.id &&& a.mask = pId &&& a.mask
    · simp [discardLoop, ha]
    · simp only [discardLoop, ha, if_false]
      apply ih
      obtain ⟨r, hr, hm⟩ := h
      rcases List.mem_cons.mp hr with rfl | hr'
      · exact absurd hm ha
      · exact ⟨r, hr', hm⟩

theorem discardLoop_of_no_match (pId : Nat) (ex : Bool) :
    ∀ (rules : List CANFlt) (n : Bool), (¬ ∃ r ∈ rules, r.id &&& r.mask = pId &&& r.mask) →
      discardLoop pId ex rules n = (ex, n) := by
  intro rules
  induction rules with
  | nil => intro n _; simp [discardLoop]
  | cons a rest ih =>
    intro n h
    have ha : ¬ (a.id &&& a.mask = pId &&& a.mask) := fun hm => h ⟨a, by simp, hm⟩
    simp only [discardLoop, ha, if_false]
    apply ih
    rintro ⟨r, hr, hm⟩
    exact h ⟨r, List.mem_cons_of_mem _ hr, hm⟩

theorem discardLoop_notify (pId : Nat) (ex : Bool) :
    ∀ (rules : List CANFlt) (n : Bool),
      (discardLoop pId ex rules n).2 = true ↔ n = true ∨ FirstMatchNotifies rules pId := by
  intro rules
  induction rules with
  | nil =>
    intro n
    simp only [discardLoop]
    constructor
    · intro h; exact Or.inl h
    · rintro (h | ⟨before, r, after, he, _⟩)
      · exact h
      · simp at he
  | cons a rest ih =>
    intro n
    by_cases ha : a.id &&& a.mask = pId &&& a.mask
    · simp only [discardLoop, ha, if_true]
      constructor
      · intro h
        by_cases hn : a.notify = true
        · exact Or.inr ⟨[], a, rest, rfl, by simp, ha, hn⟩
        · simp [hn] at h; exact Or.inl h
      · rintro (h | ⟨before, r, after, he, hb, _, hr⟩)
        · simp [h]
        · cases before with
          | nil =>
            simp at he
            obtain ⟨rfl, _⟩ := he
            simp [hr]
          | cons b bs =>
            simp at he
            obtain ⟨rfl, _⟩ := he
            exact absurd ha (hb a (by simp))
    · simp only [discardLoop, ha, if_false]
      rw [ih n]
      constructor
      · rintro (h | ⟨before, r, after, he, hb, hm, hr⟩)
        · exact Or.inl h
        · refine Or.inr ⟨a :: before, r, after, by simp [he], ?_, hm, hr⟩
          intro q hq
          rcases List.mem_cons.mp hq with rfl | hq'
          · exact ha
          · exact hb q hq'
      · rintro (h | ⟨before, r, after, he, hb, hm, hr⟩)
        · exact Or.inl h
        · cases before with
          | nil =>
            simp at he
            obtain ⟨rfl, _⟩ := he
            exact absurd hm ha
          | cons b bs =>
            simp at he
            obtain ⟨rfl, rfl⟩ := he
            exact Or.inr ⟨bs, r, after, rfl, fun q hq => hb q (List.mem_cons_of_mem _ hq), hm, hr⟩

theorem setBusConfig_valid (s : CANConnection σ CANBus CANFrame) (i : Int) (cfg : CANBus)
    (h0 : 0 ≤ i) (h1 : i < s.mNumBuses) :
    (s.setBusConfig i cfg).mNumBuses = s.mNumBuses ∧
    (s.setBusConfig i cfg).mBusData_p =
      (fun j => if j = i.toNat then
        { s.mBusData_p i.toNat with mConfigured := true, mBus := cfg }
        else s.mBusData_p j) := by
  have hg : ¬ (i < 0 ∨ i ≥ s.mNumBuses) := by omega
  simp [setBusConfig, getNumBuses, hg, setBus]
  funext j
  by_cases hj : j = i.toNat <;> simp [hj]

theorem setConfigured_valid (s : CANConnection σ CANBus CANFrame) (i : Int) (b : Bool)
    (h0 : 0 ≤ i) (h1 : i < s.mNumBuses) :
    (s.setConfigured i b).mNumBuses = s.mNumBuses ∧
    (s.setConfigured i b).mBusData_p =
      (fun j => if j = i.toNat then { s.mBusData_p i.toNat with mConfigured := b }
        else s.mBusData_p j) := by
  have hg : ¬ (i < 0 ∨ i ≥ s.mNumBuses) := by omega
  simp [setConfigured, getNumBuses, hg, setBus]

theorem setBusConfig_invalid (s : CANConnection σ CANBus CANFrame) (i : Int) (cfg : CANBus)
    (h : i < 0 ∨ s.mNumBuses ≤ i) : s.setBusConfig i cfg = s := by
  have hg : i < 0 ∨ i ≥ s.mNumBuses := h
  simp [setBusConfig, getNumBuses, hg]

theorem setConfigured_invalid (s : CANConnection σ CANBus CANFrame) (i : Int) (b : Bool)
    (h : i < 0 ∨ s.mNumBuses ≤ i) : s.setConfigured i b = s := by
  have hg : i < 0 ∨ i ≥ s.mNumBuses := h
  simp [setConfigured, getNumBuses, hg]

theorem setBusConfig_other (s : CANConnection σ CANBus CANFrame) (i j : Int) (cfg : CANBus)
    (h0 : 0 ≤ i) (hj : 0 ≤ j) (hij : i ≠ j) :
    (s.setBusConfig i cfg).mBusData_p j.toNat = s.mBusData_p j.toNat := by
  by_cases h1 : i < s.mNumBuses
  · have hne : ¬ (j.toNat = i.toNat) := by omega
    simp [(setBusConfig_valid s i cfg h0 h1).2, hne]
  · rw [setBusConfig_invalid s i cfg (Or.inr (by omega))]

theorem setConfigured_other (s : CANConnection σ CANBus CANFrame) (i j : Int) (b : Bool)
    (h0 : 0 ≤ i) (hj : 0 ≤ j) (hij : i ≠ j) :
    (s.setConfigured i b).mBusData_p j.toNat = s.mBusData_p j.toNat := by
  by_cases h1 : i < s.mNumBuses
  · have hne : ¬ (j.toNat = i.toNat) := by omega
    simp [(setConfigured_valid s i b h0 h1).2, hne]
  · rw [setConfigured_invalid s i b (Or.inr (by omega))]

theorem setBusConfig_mNumBuses (s : CANConnection σ CANBus CANFrame) (i : Int)
    (cfg : CANBus) : (s.setBusConfig i cfg).mNumBuses = s.mNumBuses := by
  by_cases h : 0 ≤ i ∧ i < s.mNumBuses
  · exact (setBusConfig_valid s i cfg h.1 h.2).1
  · rw [setBusConfig_invalid s i cfg (by omega)]

theorem setConfigured_mNumBuses (s : CANConnection σ CANBus CANFrame) (i : Int)
    (b : Bool) : (s.setConfigured i b).mNumBuses = s.mNumBuses := by
  by_cases h : 0 ≤ i ∧ i < s.mNumBuses
  · exact (setConfigured_valid s i b h.1 h.2).1
  · rw [setConfigured_invalid s i b (by omega)]

/-- The three observers of bus `j` depend only on the bus count and on entry `j`. -/
theorem observers_congr (s s' : CANConnection σ CANBus CANFrame) (j : Int)
    (hn : s'.mNumBuses = s.mNumBuses) (hb : s'.mBusData_p j.toNat = s.mBusData_p j.toNat) :
    s'.isConfigured j = s.isConfigured j ∧
    (∀ out, s'.getBusConfig j out = s.getBusConfig j out) ∧
    (∀ f n, s'.discard j f n = s.discard j f n) := by
  simp [isConfigured, getBusConfig, discard, getNumBuses, hn, hb]

end CANConnection

/-! ### Lemmas on sequences of per-bus calls -/

theorem BusOp.run_setFilters_some {σ CANBus CANFrame : Type} (cur : Thread) (j : Int)
    (fl : List CANFlt) (ex : Bool) (s s' : CANConnection σ CANBus CANFrame)
    (h : (BusOp.setFilters cur j fl ex : BusOp CANBus).run s = some s') :
    s' = (CANConnection.setFiltersBody j fl ex s (s.owningThread cur)).2 := by
  simp only [BusOp.run, Option.map_eq_some'] at h
  obtain ⟨p, hp, rfl⟩ := h
  rw [(CANConnection.setFilters_some s cur j fl ex p hp).2]

theorem BusOp.run_mNumBuses {σ CANBus CANFrame : Type} (op : BusOp CANBus)
    (s s' : CANConnection σ CANBus CANFrame) (h : op.run s = some s') :
    s'.mNumBuses = s.mNumBuses := by
  cases op with
  | setBusConfig i c =>
    simp only [BusOp.run, Option.some.injEq] at h
    rw [← h]; exact CANConnection.setBusConfig_mNumBuses s i c
  | setConfigured i b =>
    simp only [BusOp.run, Option.some.injEq] at h
    rw [← h]; exact CANConnection.setConfigured_mNumBuses s i b
  | setFilters cur i fl ex =>
    rw [BusOp.run_setFilters_some cur i fl ex s s' h]
    exact CANConnection.setFiltersBody_mNumBuses s _ i fl ex
  | getBusConfig i c =>
    simp only [BusOp.run, Option.some.injEq] at h
    rw [← h]
  | isConfigured i =>
    simp only [BusOp.run, Option.some.injEq] at h
    rw [← h]

theorem runOps_cons_some {σ CANBus CANFrame : Type} (s s' : CANConnection σ CANBus CANFrame)
    (op : BusOp CANBus) (ops : List (BusOp CANBus)) :
    runOps s (op :: ops) = some s' ↔ ∃ s1, op.run s = some s1 ∧ runOps s1 ops = some s' := by
  simp [runOps, Option.bind_eq_some]

theorem runOps_mNumBuses {σ CANBus CANFrame : Type} (ops : List (BusOp CANBus)) :
    ∀ s s' : CANConnection σ CANBus CANFrame, runOps s ops = some s' →
      s'.mNumBuses = s.mNumBuses := by
  induction ops with
  | nil =>
    intro s s' h
    simp only [runOps, Option.some.injEq] at h
    rw [← h]
  | cons op rest ih =>
    intro s s' h
    obtain ⟨s1, h1, h2⟩ := (runOps_cons_some s s' op rest).mp h
    rw [ih s1 s' h2, BusOp.run_mNumBuses op s s1 h1]

/-- A call that is neither `setBusConfig(i, _)` nor `setConfigured(i, _)` keeps the
configured flag of bus `i`. -/
theorem BusOp.run_configured_of_other {σ CANBus CANFrame : Type} (op : BusOp CANBus)
    (s s' : CANConnection σ CANBus CANFrame) (i : Int) (h0 : 0 ≤ i)
    (h : op.run s = some s')
    (h1 : ∀ c, op ≠ .setBusConfig i c) (h2 : ∀ b, op ≠ .setConfigured i b) :
    (s'.mBusData_p i.toNat).mConfigured = (s.mBusData_p i.toNat).mConfigured := by
  cases op with
  | setBusConfig j c =>
    have hji : j ≠ i := fun hh => h1 c (by rw [hh])
    simp only [BusOp.run, Option.some.injEq] at h
    rw [← h]
    by_cases hj : 0 ≤ j
    · rw [CANConnection.setBusConfig_other s j i c hj h0 hji]
    · rw [CANConnection.setBusConfig_invalid s j c (Or.inl (by omega))]
  | setConfigured j b =>
    have hji : j ≠ i := fun hh => h2 b (by rw [hh])
    simp only [BusOp.run, Option.some.injEq] at h
    rw [← h]
    by_cases hj : 0 ≤ j
    · rw [CANConnection.setConfigured_other s j i b hj h0 hji]
    · rw [CANConnection.setConfigured_invalid s j b (Or.inl (by omega))]
  | setFilters cur j fl ex =>
    rw [BusOp.run_setFilters_some cur j fl ex s s' h]
    exact (CANConnection.setFiltersBody_config s _ j fl ex i.toNat).2
  | getBusConfig j c =>
    simp only [BusOp.run, Option.some.injEq] at h
    rw [← h]
  | isConfigured j =>
    simp only [BusOp.run, Option.some.injEq] at h
    rw [← h]

/-- Without any `setConfigured(i, _)` among the calls, the configured flag of a valid
bus `i` ends up set exactly when it was set at the beginning or some
`setBusConfig(i, _)` is among the calls. -/
theorem runOps_configured_iff {σ CANBus CANFrame : Type} (i : Int) (h0 : 0 ≤ i)
    (ops : List (BusOp CANBus)) :
    ∀ s s' : CANConnection σ CANBus CANFrame, runOps s ops = some s' → i < s.mNumBuses →
      (∀ b, BusOp.setConfigured i b ∉ ops) →
      ((s'.mBusData_p i.toNat).mConfigured = true ↔
        ((s.mBusData_p i.toNat).mConfigured = true ∨ ∃ c, BusOp.setBusConfig i c ∈ ops)) := by
  induction ops with
  | nil =>
    intro s s' h _ _
    simp only [runOps, Option.some.injEq] at h
    rw [← h]; simp
  | cons op rest ih =>
    intro s s' h h1 hno
    obtain ⟨s1, hs1, hs'⟩ := (runOps_cons_some s s' op rest).mp h
    have hrest : ∀ b, BusOp.setConfigured i b ∉ rest :=
      fun b hb => hno b (List.mem_cons_of_mem _ hb)
    have hop : ∀ b, op ≠ BusOp.setConfigured i b :=
      fun b hb => hno b (by rw [hb]; exact List.mem_cons_self _ _)
    rw [ih s1 s' hs' (by rw [BusOp.run_mNumBuses op s s1 hs1]; exact h1) hrest]
    by_cases hset : ∃ c, op = BusOp.setBusConfig i c
    · obtain ⟨c, rfl⟩ := hset
      simp only [BusOp.run, Option.some.injEq] at hs1
      have : (s1.mBusData_p i.toNat).mConfigured = true := by
        rw [← hs1]
        simp [(CANConnection.setBusConfig_valid s i c h0 h1).2]
      simp [this]
    · have hset' : ∀ c, op ≠ BusOp.setBusConfig i c := fun c hc => hset ⟨c, hc⟩
      rw [BusOp.run_configured_of_other op s s1 i h0 hs1 hset' hop]
      constructor
      · rintro (h | ⟨c, hc⟩)
        · exact Or.inl h
        · exact Or.inr ⟨c, List.mem_cons_of_mem _ hc⟩
      · rintro (h | ⟨c, hc⟩)
        · exact Or.inl h
        · rcases List.mem_cons.mp hc with hc' | hc'
          · exact absurd hc'.symm (hset' c)
          · exact Or.inr ⟨c, hc'⟩

/-- Without any `setBusConfig(i, _)` or `setConfigured(i, true)` among the calls, a
configured flag of bus `i` that starts clear ends up clear. -/
theorem runOps_configured_false {σ CANBus CANFrame : Type} (i : Int) (h0 : 0 ≤ i)
    (ops : List (BusOp CANBus)) :
    ∀ s s' : CANConnection σ CANBus CANFrame, runOps s ops = some s' → i < s.mNumBuses →
      (∀ c, BusOp.setBusConfig i c ∉ ops) → BusOp.setConfigured i true ∉ ops →
      (s.mBusData_p i.toNat).mConfigured = false →
      (s'.mBusData_p i.toNat).mConfigured = false := by
  induction ops with
  | nil =>
    intro s s' h _ _ _ hs
    simp only [runOps, Option.some.injEq] at h
    rw [← h]; exact hs
  | cons op rest ih =>
    intro s s' h h1 hno hnt hs
    obtain ⟨s1, hs1, hs'⟩ := (runOps_cons_some s s' op rest).mp h
    apply ih s1 s' hs' (by rw [BusOp.run_mNumBuses op s s1 hs1]; exact h1)
      (fun c hc => hno c (List.mem_cons_of_mem _ hc))
      (fun hc => hnt (List.mem_cons_of_mem _ hc))
    have hop : ∀ c, op ≠ BusOp.setBusConfig i c :=
      fun c hc => hno c (by rw [hc]; exact List.mem_cons_self _ _)
    by_cases hset : ∃ b, op = BusOp.setConfigured i b
    · obtain ⟨b, rfl⟩ := hset
      simp only [BusOp.run, Option.some.injEq] at hs1
      rw [← hs1]
      cases b with
      | true => exact absurd (List.mem_cons_self _ _) hnt
      | false => simp [(CANConnection.setConfigured_valid s i false h0 h1).2]
    · rw [BusOp.run_configured_of_other op s s1 i h0 hs1 hop (fun b hb => hset ⟨b, hb⟩)]
      exact hs

/-! ### Lemmas on the send path -/

theorem backendAfter_cons {σ CANFrame : Type} (hook : CANFrame → σ → Bool × σ) (b : σ)
    (f : CANFrame) (l : List CANFrame) :
    backendAfter hook b (f :: l) = backendAfter hook (hook f b).2 l := rfl

theorem AllAccepted_nil {σ CANFrame : Type} (hook : CANFrame → σ → Bool × σ) (b : σ) :
    AllAccepted hook b [] := by
  intro sent f rest h
  simp at h

theorem AllAccepted_cons {σ CANFrame : Type} (hook : CANFrame → σ → Bool × σ) (b : σ)
    (f : CANFrame) (l : List CANFrame) (h1 : (hook f b).1 = true)
    (h2 : AllAccepted hook (hook f b).2 l) : AllAccepted hook b (f :: l) := by
  intro sent g rest he
  cases sent with
  | nil =>
    simp at he
    obtain ⟨rfl, _⟩ := he
    exact h1
  | cons a sent' =>
    simp at he
    obtain ⟨rfl, hl⟩ := he
    rw [backendAfter_cons]
    exact h2 sent' g rest hl

namespace CANConnection

variable {σ CANBus CANFrame : Type}

/-- The loop of the default `piSendFrames`, in terms of what the backend method
`piSendFrame` returns: either every frame was accepted, or there is a first rejected
frame and the loop stopped right after it. -/
theorem piSendFramesLoop_spec (th : Thread) (frames : List CANFrame) :
    ∀ s : CANConnection σ CANBus CANFrame,
      ((piSendFramesLoop th s frames).1 = true ∧
        AllAccepted s.hooks.piSendFrame s.backend frames ∧
        (piSendFramesLoop th s frames).2.trace =
          s.trace ++ frames.map (fun f => ⟨.piSendFrame f true, th⟩) ∧
        (piSendFramesLoop th s frames).2.backend =
          backendAfter s.hooks.piSendFrame s.backend frames) ∨
      ((piSendFramesLoop th s frames).1 = false ∧
        ∃ sent f rest, frames = sent ++ f :: rest ∧
          AllAccepted s.hooks.piSendFrame s.backend sent ∧
          (s.hooks.piSendFrame f (backendAfter s.hooks.piSendFrame s.backend sent)).1
            = false ∧
          (piSendFramesLoop th s frames).2.trace =
            s.trace ++ (sent.map (fun g => ⟨.piSendFrame g true, th⟩) ++
              [⟨.piSendFrame f false, th⟩]) ∧
          (piSendFramesLoop th s frames).2.backend =
            (s.hooks.piSendFrame f (backendAfter s.hooks.piSendFrame s.backend sent)).2) := by
  induction frames with
  | nil =>
    intro s
    left
    exact ⟨rfl, AllAccepted_nil _ _, by simp [piSendFramesLoop], rfl⟩
  | cons frame rest ih =>
    intro s
    cases hr : (s.hooks.piSendFrame frame s.backend).1 with
    | false =>
      right
      refine ⟨by simp [piSendFramesLoop, piSendFrame, hr], [], frame, rest, rfl,
        AllAccepted_nil _ _, hr, ?_, ?_⟩
      · simp [piSendFramesLoop, piSendFrame, hr, enter]
      · simp [piSendFramesLoop, piSendFrame, hr, enter, backendAfter]
    | true =>
      have hstep : piSendFramesLoop th s (frame :: rest) =
          piSendFramesLoop th (s.piSendFrame th frame).2 rest := by
        simp [piSendFramesLoop, piSendFrame, hr]
      have htr : (s.piSendFrame th frame).2.trace =
          s.trace ++ [⟨.piSendFrame frame true, th⟩] := by
        simp [piSendFrame, enter, hr]
      have hh : (s.piSendFrame th frame).2.hooks = s.hooks := rfl
      have hb : (s.piSendFrame th frame).2.backend =
          (s.hooks.piSendFrame frame s.backend).2 := rfl
      rw [hstep]
      rcases ih (s.piSendFrame th frame).2 with
        ⟨h1, ha, h2, h3⟩ | ⟨h1, sent, f, rest', he, ha, hf, h2, h3⟩
      · left
        rw [hh, hb] at ha h3
        refine ⟨h1, AllAccepted_cons _ _ _ _ hr ha, ?_, ?_⟩
        · rw [h2, htr]; simp
        · rw [h3, backendAfter_cons]
      · right
        rw [hh, hb] at ha hf h3
        refine ⟨h1, frame :: sent, f, rest', by simp [he],
          AllAccepted_cons _ _ _ _ hr ha, ?_, ?_, ?_⟩
        · rw [backendAfter_cons]; exact hf
        · rw [h2, htr]; simp
        · rw [h3, backendAfter_cons]

theorem sendFrames_eq (s : CANConnection σ CANBus CANFrame) (cur : Thread)
    (frames : List CANFrame) :
    s.sendFrames cur frames =
      if s.reachesOwner cur = true then some (s.piSendFrames (s.owningThread cur) frames)
      else none := by
  unfold sendFrames
  exact dispatch_eq s cur (fun s1 t => s1.piSendFrames t frames)

theorem piSendFrames_threads (s : CANConnection σ CANBus CANFrame) (th : Thread)
    (frames : List CANFrame) :
    ∃ added, (s.piSendFrames th frames).2.trace = s.trace ++ added ∧
      ∀ e ∈ added, e.thread = th := by
  unfold piSendFrames
  cases ho : s.hooks.piSendFramesOverride with
  | some f => exact ⟨[⟨.piSendFrames frames, th⟩], by simp, by simp⟩
  | none =>
    simp only []
    rcases piSendFramesLoop_spec th frames
        ({ s with trace := s.trace ++ [⟨.piSendFrames frames, th⟩] }) with
      ⟨_, _, h2, _⟩ | ⟨_, sent, f, rest, _, _, _, h2, _⟩
    · refine ⟨_, by rw [h2]; simp only [List.append_assoc]; rfl, ?_⟩
      intro e he
      simp at he
      rcases he with rfl | ⟨a, _, rfl⟩ <;> rfl
    · refine ⟨_, by rw [h2]; simp only [List.append_assoc]; rfl, ?_⟩
      intro e he
      simp at he
      rcases he with rfl | ⟨a, _, rfl⟩ | rfl <;> rfl

end CANConnection

namespace CANConnection

variable {σ CANBus CANFrame : Type}

/-- On a valid index, a call of `setFilters` that reaches the owning context returns
true with the bus count unchanged, bus `i` holding the new rules and flag, and the log
extended by the call of `piSetFilters` when the flag is set. -/
theorem setFilters_valid (s : CANConnection σ CANBus CANFrame) (cur : Thread) (i : Int)
    (rules : List CANFlt) (ex : Bool) (h0 : 0 ≤ i) (h1 : i < s.mNumBuses)
    (hr : s.reachesOwner cur = true) :
    ∃ s', s.setFilters cur i rules ex = some (true, s') ∧
      s'.mNumBuses = s.mNumBuses ∧
      s'.mBusData_p =
        (fun j => if j = i.toNat then
          { s.mBusData_p i.toNat with mFilters := rules, mFilterOut := ex }
          else s.mBusData_p j) ∧
      s'.trace =
        s.trace ++ (if ex then [⟨.piSetFilters i rules, s.owningThread cur⟩] else []) := by
  obtain ⟨hb1, hb2, hb3, hb4⟩ := setFiltersBody_valid s (s.owningThread cur) i rules ex h0 h1
  refine ⟨(setFiltersBody i rules ex s (s.owningThread cur)).2, ?_, hb2, hb3, hb4⟩
  rw [setFilters_of_reaches s cur i rules ex hr, ← hb1]

/-- A method made of the thread test, the blocking hand-over and a body that logs its
backend calls on the executing thread: when it returns, the calls it added ran on the
owning thread; when it does not return, the caller was off the owning thread and that
thread was not running. -/
theorem dispatch_threads {β : Type} (s : CANConnection σ CANBus CANFrame) (cur : Thread)
    (slot : CANConnection σ CANBus CANFrame → Thread → β)
    (post : β → CANConnection σ CANBus CANFrame)
    (hslot : ∀ th, ∃ added, (post (slot s th)).trace = s.trace ++ added ∧
      ∀ e ∈ added, e.thread = th) :
    (∀ s', ((if s.offThread cur = true then s.invokeMethod cur slot
        else some (slot s cur)).map post) = some s' →
      ∃ added, s'.trace = s.trace ++ added ∧ ∀ e ∈ added, e.thread = s.owningThread cur) ∧
    (((if s.offThread cur = true then s.invokeMethod cur slot
        else some (slot s cur)).map post) = none →
      s.offThread cur = true ∧ s.threadState ≠ .running) := by
  rw [dispatch_eq]
  cases hr : s.reachesOwner cur with
  | true =>
    simp only [if_true, Option.map_some', Option.some.injEq]
    refine ⟨fun s' hs' => ?_, fun hn => absurd hn (by simp)⟩
    rw [← hs']
    exact hslot _
  | false =>
    simp only [Bool.false_eq_true, if_false, Option.map_none']
    exact ⟨fun s' hs' => absurd hs' (by simp),
      fun _ => offThread_of_not_reachesOwner s cur hr⟩

end CANConnection

/-! ### Filter engine -/

open CANConnection

/-- C1. After a call `setFilters(i, rules, ex)` on a valid bus index `i` that is executed
by the owning context (it then returns true), `discard(i, f)` returns false when some
rule of `rules` matches `f` under its mask and returns `ex` when none does (so it
returns `ex` for every `f` when `rules` is empty); on an index outside
`0 <= i < busCount`, `discard(i, f)` returns true. -/
theorem discard_after_setFilters {σ CANBus CANFrame : Type}
    (s : CANConnection σ CANBus CANFrame) (cur : Thread) (i : Int) (rules : List CANFlt)
    (ex : Bool) (f : Nat) (n : Bool) :
    (0 ≤ i → i < s.getNumBuses → s.reachesOwner cur = true →
      (∃ s', s.setFilters cur i rules ex = some (true, s') ∧
        ((∃ r ∈ rules, r.id &&& r.mask = f &&& r.mask) → (s'.discard i f n).1 = false) ∧
        ((¬ ∃ r ∈ rules, r.id &&& r.mask = f &&& r.mask) → (s'.discard i f n).1 = ex)) ∧
      (∃ s', s.setFilters cur i [] ex = some (true, s') ∧ (s'.discard i f n).1 = ex)) ∧
    ((i < 0 ∨ s.getNumBuses ≤ i) → (s.discard i f n).1 = true) := by
  refine ⟨fun h0 h1 hr => ?_, fun h => ?_⟩
  · have hg : ¬ (i < 0 ∨ i ≥ s.mNumBuses) := by
      have : i < s.mNumBuses := h1
      omega
    have key : ∀ rl : List CANFlt, ∃ s', s.setFilters cur i rl ex = some (true, s') ∧
        s'.discard i f n = discardLoop f ex rl n := by
      intro rl
      obtain ⟨s', hs, hn, hb, _⟩ := setFilters_valid s cur i rl ex h0 h1 hr
      exact ⟨s', hs, by simp [CANConnection.discard, getNumBuses, hn, hb, hg]⟩
    constructor
    · obtain ⟨s', hs, hd⟩ := key rules
      refine ⟨s', hs, fun hm => ?_, fun hm => ?_⟩
      · rw [hd]; exact discardLoop_of_match f ex rules n hm
      · rw [hd, discardLoop_of_no_match f ex rules n hm]
    · obtain ⟨s', hs, hd⟩ := key []
      exact ⟨s', hs, by rw [hd]; simp [discardLoop]⟩
  · have hg : i < 0 ∨ i ≥ s.mNumBuses := h
    simp [CANConnection.discard, getNumBuses, hg]

/-- C1 at a concrete input: bus 0 of a two-bus connection, one rule `0x100/0xFFF`,
exclusion on, the frames `0x100` (matched) and `0x200` (not matched); and the index 2,
which is out of range. -/
theorem discard_after_setFilters_witness :
    (∃ s', (plain 2).setFilters 0 0 [⟨0x100, 0xFFF, true⟩] true = some (true, s') ∧
      (s'.discard 0 0x100 false).1 = false) ∧
    (∃ s', (plain 2).setFilters 0 0 [⟨0x100, 0xFFF, true⟩] true = some (true, s') ∧
      (s'.discard 0 0x200 false).1 = true) ∧
    ((plain 2).discard 2 0x100 false).1 = true := by
  refine ⟨?_, ?_, ?_⟩
  · obtain ⟨s', hs, hm, _⟩ :=
      ((discard_after_setFilters (plain 2) 0 0 [⟨0x100, 0xFFF, true⟩] true 0x100 false).1
        (by decide) (by decide) (by decide)).1
    exact ⟨s', hs, hm (by decide)⟩
  · obtain ⟨s', hs, _, hn⟩ :=
      ((discard_after_setFilters (plain 2) 0 0 [⟨0x100, 0xFFF, true⟩] true 0x200 false).1
        (by decide) (by decide) (by decide)).1
    exact ⟨s', hs, hn (by decide)⟩
  · exact (discard_after_setFilters (plain 2) 0 2 [] true 0x100 false).2 (by decide)

/-- C2, as the claim states it, fails: with the caller's notify variable already true,
`discard` reports notify = true although the first (and only) matching rule has its
notify flag clear. -/
theorem discard_notify_counterexample :
    (((plain 1).setFilters 0 0 [⟨0x100, 0xFFF, false⟩] true).map
      (fun p => (p.2.discard 0 0x100 true).2)) = some true ∧
    ¬ FirstMatchNotifies [⟨0x100, 0xFFF, false⟩] 0x100 := by
  refine ⟨by decide, fun h => ?_⟩
  have h2 := (CANConnection.discardLoop_notify 0x100 true [⟨0x100, 0xFFF, false⟩] false).mpr
    (Or.inr h)
  revert h2
  decide

/-- C2 (amended). For a valid bus index, the notify value reported by `discard` is true
if and only if the caller's notify variable was already true before the call, or a rule
matching the frame id exists and the first such rule in stored order has its notify flag
set; in particular, when the caller passes false, it is true exactly in the second case
(and so false when no rule matches or the first matching rule has notify clear). -/
theorem discard_notify {σ CANBus CANFrame : Type}
    (s : CANConnection σ CANBus CANFrame) (i : Int) (f : Nat) (n : Bool)
    (h0 : 0 ≤ i) (h1 : i < s.getNumBuses) :
    ((s.discard i f n).2 = true ↔
      n = true ∨ FirstMatchNotifies (s.mBusData_p i.toNat).mFilters f) ∧
    ((s.discard i f false).2 = true ↔
      FirstMatchNotifies (s.mBusData_p i.toNat).mFilters f) := by
  have hg : ¬ (i < 0 ∨ i ≥ s.mNumBuses) := by
    have : i < s.mNumBuses := h1
    omega
  have key : ∀ m : Bool, s.discard i f m =
      discardLoop f (s.mBusData_p i.toNat).mFilterOut (s.mBusData_p i.toNat).mFilters m := by
    intro m
    simp [CANConnection.discard, getNumBuses, hg]
  constructor
  · rw [key]; exact discardLoop_notify _ _ _ _
  · rw [key, discardLoop_notify]; simp

/-- C2 (amended) at a concrete input: bus 0 holding one matching rule with notify set. -/
theorem discard_notify_witness :
    (((setFiltersBody 0 [⟨0x100, 0xFFF, true⟩] true (plain 1) 0).2.discard 0 0x100 false).2
        = true ↔
      FirstMatchNotifies
        (((setFiltersBody 0 [⟨0x100, 0xFFF, true⟩] true (plain 1) 0).2.mBusData_p
          (0 : Int).toNat).mFilters) 0x100) :=
  (discard_notify (setFiltersBody 0 [⟨0x100, 0xFFF, true⟩] true (plain 1) 0).2 0 0x100 false
    (by decide) (by decide)).2

/-- C4, as the claim states it, fails: on a threaded connection whose thread has not
been started, `setFilters` called off the owning thread with the out-of-range index
`-1` hands the call over before it checks the index, and never returns. -/
theorem invalid_index_counterexample :
    (threaded 2).offThread 0 = true ∧ (threaded 2).threadState = .notStarted ∧
    ((-1 : Int) < 0 ∨ (threaded 2).getNumBuses ≤ -1) ∧
    ((threaded 2).setFilters 0 (-1) [⟨1, 1, true⟩] true).isSome = false := by
  decide

/-- C4 (amended). On an index outside `0 <= i < busCount`, `isConfigured` returns false,
`getBusConfig` returns false and leaves the caller's output configuration as it was,
`setBusConfig` and `setConfigured` return the object unchanged, and a call of
`setFilters` that is executed by the owning context (the caller is on it, or the
dedicated thread is running) returns false with the object unchanged (every bus as
before, no backend method called). -/
theorem invalid_index_rejected {σ CANBus CANFrame : Type}
    (s : CANConnection σ CANBus CANFrame) (cur : Thread) (i : Int) (cfg out : CANBus)
    (b : Bool) (rules : List CANFlt) (ex : Bool) (h : i < 0 ∨ s.getNumBuses ≤ i) :
    s.isConfigured i = false ∧
    s.getBusConfig i out = (false, out) ∧
    s.setBusConfig i cfg = s ∧
    s.setConfigured i b = s ∧
    (s.reachesOwner cur = true → s.setFilters cur i rules ex = some (false, s)) := by
  have hg : i < 0 ∨ i ≥ s.mNumBuses := h
  refine ⟨?_, ?_, setBusConfig_invalid s i cfg h, setConfigured_invalid s i b h, ?_⟩
  · simp [isConfigured, getNumBuses, hg]
  · rcases hg with hg | hg <;> simp [getBusConfig, getNumBuses, hg]
  · intro hr
    rw [setFilters_of_reaches s cur i rules ex hr, setFiltersBody_invalid s _ i rules ex h]

/-- C4 (amended) at a concrete input: index `-1` of a started threaded two-bus
connection, `setFilters` being called off the owning thread. -/
theorem invalid_index_rejected_witness :
    running.isConfigured (-1) = false ∧
    running.getBusConfig (-1) 9 = (false, 9) ∧
    running.setBusConfig (-1) 4 = running ∧
    running.setConfigured (-1) true = running ∧
    running.setFilters 0 (-1) [⟨1, 1, true⟩] true = some (false, running) :=
  ⟨(invalid_index_rejected running 0 (-1) 4 9 true [⟨1, 1, true⟩] true (by decide)).1,
   (invalid_index_rejected running 0 (-1) 4 9 true [⟨1, 1, true⟩] true (by decide)).2.1,
   (invalid_index_rejected running 0 (-1) 4 9 true [⟨1, 1, true⟩] true (by decide)).2.2.1,
   (invalid_index_rejected running 0 (-1) 4 9 true [⟨1, 1, true⟩] true (by decide)).2.2.2.1,
   (invalid_index_rejected running 0 (-1) 4 9 true [⟨1, 1, true⟩] true (by decide)).2.2.2.2
     (by decide)⟩

/-- C10. For distinct bus indices `i` and `j`, each of `setBusConfig(i, cfg)`,
`setConfigured(i, b)` and `setFilters(i, rules, ex)` leaves the whole record of bus `j`
unchanged, so `isConfigured(j)`, `getBusConfig(j)` and `discard(j, f)` return what they
returned before; `setFilters(i, ...)` keeps bus `i`'s configuration and configured flag,
and `setBusConfig(i, ...)` and `setConfigured(i, ...)` keep bus `i`'s filter list and
exclude flag. (Only the lower bounds of validity are needed; for `setFilters` the state
after the call is the one with which the call returns.) -/
theorem bus_isolation {σ CANBus CANFrame : Type}
    (s : CANConnection σ CANBus CANFrame) (cur : Thread) (i j : Int) (cfg : CANBus)
    (b : Bool) (rules : List CANFlt) (ex : Bool)
    (hi : 0 ≤ i) (hj : 0 ≤ j) (hij : i ≠ j) :
    (∀ s' : CANConnection σ CANBus CANFrame,
      (s' = s.setBusConfig i cfg ∨ s' = s.setConfigured i b ∨
        ∃ r, s.setFilters cur i rules ex = some (r, s')) →
      s'.mBusData_p j.toNat = s.mBusData_p j.toNat ∧
      s'.isConfigured j = s.isConfigured j ∧
      (∀ out, s'.getBusConfig j out = s.getBusConfig j out) ∧
      (∀ f n, s'.discard j f n = s.discard j f n)) ∧
    (∀ r s', s.setFilters cur i rules ex = some (r, s') →
      (s'.mBusData_p i.toNat).mBus = (s.mBusData_p i.toNat).mBus ∧
      (s'.mBusData_p i.toNat).mConfigured = (s.mBusData_p i.toNat).mConfigured) ∧
    (s.reachesOwner cur = true → ∃ r s', s.setFilters cur i rules ex = some (r, s')) ∧
    (((s.setBusConfig i cfg).mBusData_p i.toNat).mFilters = (s.mBusData_p i.toNat).mFilters ∧
     ((s.setBusConfig i cfg).mBusData_p i.toNat).mFilterOut =
        (s.mBusData_p i.toNat).mFilterOut) ∧
    (((s.setConfigured i b).mBusData_p i.toNat).mFilters = (s.mBusData_p i.toNat).mFilters ∧
     ((s.setConfigured i b).mBusData_p i.toNat).mFilterOut =
        (s.mBusData_p i.toNat).mFilterOut) := by
  refine ⟨?_, ?_, ?_, ?_, ?_⟩
  · rintro s' (rfl | rfl | ⟨r, hs⟩)
    · have hb := setBusConfig_other s i j cfg hi hj hij
      exact ⟨hb, observers_congr s _ j (setBusConfig_mNumBuses s i cfg) hb⟩
    · have hb := setConfigured_other s i j b hi hj hij
      exact ⟨hb, observers_congr s _ j (setConfigured_mNumBuses s i b) hb⟩
    · have he := (setFilters_some s cur i rules ex (r, s') hs).2
      have hs' : s' = (setFiltersBody i rules ex s (s.owningThread cur)).2 := by rw [← he]
      have hb : s'.mBusData_p j.toNat = s.mBusData_p j.toNat := by
        rw [hs']; exact setFiltersBody_other s _ i j rules ex hi hj hij
      have hn : s'.mNumBuses = s.mNumBuses := by
        rw [hs']; exact setFiltersBody_mNumBuses s _ i rules ex
      exact ⟨hb, observers_congr s s' j hn hb⟩
  · intro r s' hs
    have he := (setFilters_some s cur i rules ex (r, s') hs).2
    have hs' : s' = (setFiltersBody i rules ex s (s.owningThread cur)).2 := by rw [← he]
    rw [hs']
    exact setFiltersBody_config s _ i rules ex i.toNat
  · intro hr
    exact ⟨_, _, setFilters_of_reaches s cur i rules ex hr⟩
  · by_cases h1 : i < s.mNumBuses
    · simp [(setBusConfig_valid s i cfg hi h1).2]
    · simp [setBusConfig_invalid s i cfg (Or.inr (by omega))]
  · by_cases h1 : i < s.mNumBuses
    · simp [(setConfigured_valid s i b hi h1).2]
    · simp [setConfigured_invalid s i b (Or.inr (by omega))]

/-- C10 at a concrete input: writing bus 0 of a two-bus connection, by `setBusConfig`
and by `setFilters`, leaves bus 1 alone. -/
theorem bus_isolation_witness :
    ((plain 2).setBusConfig 0 5).mBusData_p (1 : Int).toNat =
        (plain 2).mBusData_p (1 : Int).toNat ∧
    ((plain 2).setBusConfig 0 5).isConfigured 1 = (plain 2).isConfigured 1 ∧
    (∃ r s', (plain 2).setFilters 0 0 [⟨1, 1, true⟩] true = some (r, s') ∧
      s'.mBusData_p (1 : Int).toNat = (plain 2).mBusData_p (1 : Int).toNat ∧
      (∀ f n, s'.discard 1 f n = (plain 2).discard 1 f n) ∧
      (s'.mBusData_p (0 : Int).toNat).mConfigured =
        ((plain 2).mBusData_p (0 : Int).toNat).mConfigured) := by
  have h := bus_isolation (plain 2) 0 0 1 5 true [⟨1, 1, true⟩] true
    (by decide) (by decide) (by decide)
  refine ⟨(h.1 _ (Or.inl rfl)).1, (h.1 _ (Or.inl rfl)).2.1, ?_⟩
  obtain ⟨r, s', hs⟩ := h.2.2.1 (by decide)
  exact ⟨r, s', hs, (h.1 s' (Or.inr (Or.inr ⟨r, hs⟩))).1,
    (h.1 s' (Or.inr (Or.inr ⟨r, hs⟩))).2.2.2, (h.2.1 r s' hs).2⟩

/-- C3, as the claim states it, fails: on bus 1 of a two-bus connection no configuration
was ever stored, yet after `setConfigured(1, true)` the call `getBusConfig(1)` returns
true. -/
theorem getBusConfig_unstored_counterexample :
    (∀ c : Nat, BusOp.setBusConfig 1 c ∉ ([BusOp.setConfigured 1 true] : List (BusOp Nat))) ∧
    ((runOps (plain 2) [BusOp.setConfigured 1 true]).map
      (fun s' => (s'.getBusConfig 1 5).1)) = some true := by
  refine ⟨fun c hc => ?_, by decide⟩
  simp at hc

/-- C3 (amended). On a valid bus index `setBusConfig(i, cfg)` followed by
`getBusConfig(i)` returns true and yields `cfg`; on an index out of range
`getBusConfig(i)` returns false; and on a valid index of a connection reached from
construction by public per-bus calls among which there is no `setBusConfig(i, _)` and no
`setConfigured(i, true)`, `getBusConfig(i)` returns false. -/
theorem busConfig_round_trip {σ CANBus CANFrame : Type}
    (s : CANConnection σ CANBus CANFrame) (i : Int) (cfg out : CANBus)
    (hooks : Backend σ CANBus CANFrame) (b0 : σ) (dflt : CANBus) (fresh : Thread)
    (pNumBuses : Int) (pUseThread : Bool) (ops : List (BusOp CANBus)) :
    (0 ≤ i → i < s.getNumBuses → (s.setBusConfig i cfg).getBusConfig i out = (true, cfg)) ∧
    ((i < 0 ∨ s.getNumBuses ≤ i) → (s.getBusConfig i out).1 = false) ∧
    (0 ≤ i → i < pNumBuses →
      (∀ c, BusOp.setBusConfig i c ∉ ops) → BusOp.setConfigured i true ∉ ops →
      ∀ s', runOps (construct hooks b0 dflt fresh pNumBuses pUseThread) ops = some s' →
        (s'.getBusConfig i out).1 = false) := by
  refine ⟨fun h0 h1 => ?_, fun h => ?_, fun h0 h1 hno hnt s' hs' => ?_⟩
  · have h1' : i < s.mNumBuses := h1
    obtain ⟨hn, hb⟩ := setBusConfig_valid s i cfg h0 h1'
    have h0' : ¬ (i < 0) := by omega
    have h1'' : ¬ (s.mNumBuses ≤ i) := by omega
    simp [getBusConfig, isConfigured, getNumBuses, hn, hb, h0', h1'']
  · have hg : i < 0 ∨ i ≥ s.mNumBuses := h
    rcases hg with hg | hg <;> simp [getBusConfig, getNumBuses, hg]
  · have hc := runOps_configured_false i h0 ops
      (construct hooks b0 dflt fresh pNumBuses pUseThread) s' hs' h1 hno hnt rfl
    have hn : s'.mNumBuses = pNumBuses := runOps_mNumBuses ops _ s' hs'
    have h0' : ¬ (i < 0) := by omega
    have h1' : ¬ (pNumBuses ≤ i) := by omega
    simp [getBusConfig, isConfigured, getNumBuses, hn, hc, h0', h1']

/-- C3 (amended) at a concrete input: the round trip on bus 1 of a two-bus connection,
a read of the out-of-range index 2, and a read of bus 1 after calls that store no
configuration there. -/
theorem busConfig_round_trip_witness :
    ((plain 2).setBusConfig 1 42).getBusConfig 1 0 = (true, 42) ∧
    ((plain 2).getBusConfig 2 0).1 = false ∧
    (∃ s', runOps (CANConnection.construct idleBackend () 0 7 2 false)
        [BusOp.setBusConfig 0 3, BusOp.setConfigured 1 false] = some s' ∧
      (s'.getBusConfig 1 0).1 = false) :=
  ⟨(busConfig_round_trip (plain 2) 1 42 0 idleBackend () 0 7 2 false []).1
      (by decide) (by decide),
   (busConfig_round_trip (plain 2) 2 42 0 idleBackend () 0 7 2 false []).2.1 (by decide),
   ⟨_, rfl, (busConfig_round_trip (plain 2) 1 42 0 idleBackend () 0 7 2 false
      [BusOp.setBusConfig 0 3, BusOp.setConfigured 1 false]).2.2
      (by decide) (by decide) (by simp) (by simp) _ rfl⟩⟩

/-- C8, as the claim states it, fails: `setBusConfig(0, _)` has been called, yet after
`setConfigured(0, false)` the call `isConfigured(0)` returns false. -/
theorem configured_flag_counterexample :
    (∃ c : Nat, BusOp.setBusConfig 0 c ∈
      [BusOp.setBusConfig 0 (3 : Nat), BusOp.setConfigured 0 false]) ∧
    ((runOps (plain 1) [BusOp.setBusConfig 0 3, BusOp.setConfigured 0 false]).map
      (fun s' => s'.isConfigured 0)) = some false :=
  ⟨⟨3, by simp⟩, by decide⟩

/-- C8 (amended). In every state reached from construction by public per-bus calls
(`setBusConfig`, `setConfigured`, `setFilters`, `getBusConfig`, `isConfigured`) none of
which is `setConfigured(i, _)` for the valid index `i`, `isConfigured(i)` is true if and
only if `setBusConfig(i, _)` is among the calls; and in every state reached by any such
calls, `getBusConfig(i)` returns false whenever `isConfigured(i)` is false. -/
theorem configured_flag_invariant {σ CANBus CANFrame : Type}
    (hooks : Backend σ CANBus CANFrame) (b0 : σ) (dflt : CANBus) (fresh : Thread)
    (pNumBuses : Int) (pUseThread : Bool) (ops : List (BusOp CANBus)) (i : Int)
    (out : CANBus) (s' : CANConnection σ CANBus CANFrame)
    (hs' : runOps (construct hooks b0 dflt fresh pNumBuses pUseThread) ops = some s') :
    (0 ≤ i → i < pNumBuses → (∀ b, BusOp.setConfigured i b ∉ ops) →
      (s'.isConfigured i = true ↔ ∃ c, BusOp.setBusConfig i c ∈ ops)) ∧
    (s'.isConfigured i = false → (s'.getBusConfig i out).1 = false) := by
  refine ⟨fun h0 h1 hno => ?_, fun h => ?_⟩
  · have hc := runOps_configured_iff i h0 ops
      (construct hooks b0 dflt fresh pNumBuses pUseThread) s' hs' h1 hno
    have hn : s'.mNumBuses = pNumBuses := runOps_mNumBuses ops _ s' hs'
    have h0' : ¬ (i < 0) := by omega
    have h1' : ¬ (pNumBuses ≤ i) := by omega
    have hinit : ((construct hooks b0 dflt fresh pNumBuses pUseThread).mBusData_p
        i.toNat).mConfigured = false := rfl
    simp only [hinit, Bool.false_eq_true, false_or] at hc
    simp only [isConfigured, getNumBuses, hn, h0', ge_iff_le, h1', or_self, if_false]
    exact hc
  · simp [getBusConfig, h]

/-- C8 (amended) at a concrete input: bus 0 after a `setBusConfig(0, 3)` and a
`setFilters` call; and bus 0 after `setBusConfig(0, 3)` then `setConfigured(0, false)`,
where `isConfigured(0)` is false and `getBusConfig(0)` fails. -/
theorem configured_flag_invariant_witness :
    (∃ s', runOps (CANConnection.construct idleBackend () 0 7 1 false)
        [BusOp.setBusConfig 0 3, BusOp.setFilters 0 0 [] true] = some s' ∧
      (s'.isConfigured 0 = true ↔ ∃ c, BusOp.setBusConfig 0 c ∈
        [BusOp.setBusConfig 0 (3 : Nat), BusOp.setFilters 0 0 [] true])) ∧
    (∃ s', runOps (CANConnection.construct idleBackend () 0 7 1 false)
        [BusOp.setBusConfig 0 3, BusOp.setConfigured 0 false] = some s' ∧
      (s'.getBusConfig 0 9).1 = false) :=
  ⟨⟨_, rfl, (configured_flag_invariant idleBackend () 0 7 1 false
      [BusOp.setBusConfig 0 3, BusOp.setFilters 0 0 [] true] 0 0 _ rfl).1
      (by decide) (by decide) (by simp)⟩,
   ⟨_, rfl, (configured_flag_invariant idleBackend () 0 7 1 false
      [BusOp.setBusConfig 0 3, BusOp.setConfigured 0 false] 0 9 _ rfl).2 (by decide)⟩⟩

/-! ### Send path -/

/-- C5. With the default `piSendFrames`, a call of `sendFrames` that is executed by the
owning context calls `piSendFrame` on the frames in list order on the owning thread. It
returns true if and only if `piSendFrame` returned true for every frame of the list
(true for the empty list), and then it has called `piSendFrame` once on every frame.
When it returns false there is a first frame for which `piSendFrame` returned false: it
has called `piSendFrame` exactly on the frames up to and including that one, every one
before it having returned true, and on no later frame. The backend is left in the state
produced by exactly those calls. -/
theorem sendFrames_default {σ CANBus CANFrame : Type}
    (s : CANConnection σ CANBus CANFrame) (cur : Thread) (frames : List CANFrame)
    (hd : s.hooks.piSendFramesOverride = none) (hr : s.reachesOwner cur = true) :
    ∃ r s', s.sendFrames cur frames = some (r, s') ∧
      (r = true ↔ AllAccepted s.hooks.piSendFrame s.backend frames) ∧
      (r = true →
        s'.trace = s.trace ++ (⟨.piSendFrames frames, s.owningThread cur⟩ ::
          frames.map (fun f => ⟨.piSendFrame f true, s.owningThread cur⟩)) ∧
        s'.backend = backendAfter s.hooks.piSendFrame s.backend frames) ∧
      (r = false →
        ∃ sent f rest, frames = sent ++ f :: rest ∧
          AllAccepted s.hooks.piSendFrame s.backend sent ∧
          (s.hooks.piSendFrame f (backendAfter s.hooks.piSendFrame s.backend sent)).1
            = false ∧
          s'.trace = s.trace ++ (⟨.piSendFrames frames, s.owningThread cur⟩ ::
            (sent.map (fun g => ⟨.piSendFrame g true, s.owningThread cur⟩) ++
              [⟨.piSendFrame f false, s.owningThread cur⟩])) ∧
          s'.backend =
            (s.hooks.piSendFrame f (backendAfter s.hooks.piSendFrame s.backend sent)).2) := by
  have he : s.sendFrames cur frames =
      some (piSendFramesLoop (s.owningThread cur)
        ({ s with trace := s.trace ++ [⟨.piSendFrames frames, s.owningThread cur⟩] })
        frames) := by
    rw [sendFrames_eq, if_pos hr]
    unfold piSendFrames
    simp only [hd]
  refine ⟨_, _, he, ?_⟩
  rcases piSendFramesLoop_spec (s.owningThread cur) frames
      ({ s with trace := s.trace ++ [⟨.piSendFrames frames, s.owningThread cur⟩] }) with
    ⟨h1, ha, h2, h3⟩ | ⟨h1, sent, f, rest, hf, ha, hx, h2, h3⟩
  · refine ⟨⟨fun _ => ha, fun _ => h1⟩, fun _ => ⟨by rw [h2]; simp, h3⟩, fun hc => ?_⟩
    rw [h1] at hc
    exact absurd hc (by simp)
  · refine ⟨⟨fun hc => ?_, fun hall => ?_⟩, fun hc => ?_,
      fun _ => ⟨sent, f, rest, hf, ha, hx, by rw [h2]; simp, h3⟩⟩
    · rw [h1] at hc
      exact absurd hc (by simp)
    · have := hall sent f rest hf
      rw [hx] at this
      exact absurd this (by simp)
    · rw [h1] at hc
      exact absurd hc (by simp)

/-- C5 at a concrete input: frames 1, 2, 3 on a connection whose backend rejects
frame 2. The call returns false, `piSendFrame` was called on frames 1 and 2 and not on
frame 3, and the backend has counted two calls. -/
theorem sendFrames_default_witness :
    ∃ s', rejecting.sendFrames 0 [1, 2, 3] = some (false, s') ∧
      s'.trace = [⟨.piSendFrames [1, 2, 3], 0⟩, ⟨.piSendFrame 1 true, 0⟩,
        ⟨.piSendFrame 2 false, 0⟩] ∧
      s'.backend = 2 := by
  obtain ⟨r, s', hs, hiff, _, hfalse⟩ :=
    sendFrames_default rejecting 0 [1, 2, 3] rfl (by decide)
  have hr : r = false := by
    cases r with
    | false => rfl
    | true =>
      have h2 := hiff.mp rfl [1] 2 [3] rfl
      exact absurd h2 (by decide)
  subst hr
  obtain ⟨sent, f, rest, he, _, hf, ht, hb⟩ := hfalse rfl
  have hf2 : f = 2 := by
    have : (f != 2) = false := hf
    simpa using this
  subst hf2
  have hsent : sent = [1] := by
    match sent, he with
    | [], he => simp at he
    | [a], he => simp at he; rw [he.1]
    | [a, b], he => simp at he
    | a :: b :: c :: l, he => simp at he
  subst hsent
  refine ⟨s', hs, ?_, ?_⟩
  · rw [ht]; rfl
  · rw [hb]; rfl

/-! ### Lifecycle -/

/-- C7, as the claim states it, fails: on a connection without a dedicated thread two
calls of `stop()` in sequence call `piStop` twice; so do two calls on a threaded
connection that was not started. -/
theorem stop_twice_counterexample :
    (((plain 1).stop 0).bind (fun s1 => s1.stop 0)).map (fun s2 => stopCount s2.trace)
      = some 2 ∧
    (((threaded 1).stop 0).bind (fun s1 => s1.stop 0)).map (fun s2 => stopCount s2.trace)
      = some 2 := by
  constructor <;> decide

/-- C7 (amended). Two calls of `stop()` in sequence from the same thread call `piStop`
exactly once in total when the connection has a dedicated thread, has been started, the
caller is not the owning thread and the owning thread is running (none at all if it has
already finished; with the started flag set on a thread that was never started, a state
no call sequence produces, the first call would not return); in every other case (no
dedicated thread, not started, or called on the owning thread) each call of `stop()`
calls `piStop`, twice in total. -/
theorem stop_twice {σ CANBus CANFrame : Type}
    (s : CANConnection σ CANBus CANFrame) (cur : Thread) :
    ((s.stop cur).bind (fun s1 => s1.stop cur)).map (fun s2 => stopCount s2.trace) =
      if s.offThread cur = true ∧ s.mStarted = true then
        (match s.threadState with
          | .finished => some (stopCount s.trace)
          | .running => some (stopCount s.trace + 1)
          | .notStarted => none)
      else some (stopCount s.trace + 2) := by
  have hcount : ∀ (tr : List (Event CANBus CANFrame)) (th : Thread),
      stopCount (tr ++ [⟨.piStop, th⟩]) = stopCount tr + 1 := by
    intro tr th
    simp [stopCount, HookCall.isStop, List.filter_append]
  by_cases h : s.offThread cur = true ∧ s.mStarted = true
  · obtain ⟨ho, hs⟩ := h
    cases hf : s.threadState with
    | finished =>
      have e1 : s.stop cur = some s := by
        simp [CANConnection.stop, ho, hs, isFinished, hf]
      simp [e1, ho, hs]
    | running =>
      have e1 : s.stop cur =
          some { s.piStop (s.owningThread cur) with threadState := .finished } := by
        simp [CANConnection.stop, ho, hs, isFinished, hf, invokeMethod]
      have ho' : ({ s.piStop (s.owningThread cur) with threadState := .finished } :
          CANConnection σ CANBus CANFrame).offThread cur = true := ho
      have e2 : ({ s.piStop (s.owningThread cur) with threadState := .finished } :
          CANConnection σ CANBus CANFrame).stop cur =
          some { s.piStop (s.owningThread cur) with threadState := .finished } := by
        unfold CANConnection.stop
        rw [ho']
        simp [piStop, enter, hs, isFinished]
      rw [e1, Option.some_bind, e2]
      simp only [ho, hs, and_self, if_true, Option.map_some']
      simp only [piStop, enter, hcount]
    | notStarted =>
      have e1 : s.stop cur = none := by
        simp [CANConnection.stop, ho, hs, isFinished, hf, invokeMethod]
      simp [e1, ho, hs]
  · have hb : (s.offThread cur && s.mStarted) = false := by
      cases ho : s.offThread cur <;> cases hs : s.mStarted <;> simp_all
    have e1 : s.stop cur = some (s.piStop cur) := by simp [CANConnection.stop, hb]
    have hb' : ((s.piStop cur).offThread cur && (s.piStop cur).mStarted) = false := hb
    have e2 : (s.piStop cur).stop cur = some ((s.piStop cur).piStop cur) := by
      simp [CANConnection.stop, hb']
    rw [e1, Option.some_bind, e2]
    simp only [h, if_false, Option.map_some']
    simp only [piStop, enter, hcount]

/-- C9, as the claim states it, fails: on a connection with the dedicated thread 7 that
has not been started, `stop()` called from thread 0 runs `piStop` on thread 0. -/
theorem thread_affinity_counterexample :
    (threaded 1).mThread_p = some 7 ∧ (threaded 1).mStarted = false ∧
    (((Op.stop : Op Nat Nat).run (threaded 1) 0).map
      (fun s' => s'.trace.map (fun e => (e.call.isStop, e.thread)))) = some [(true, 0)] := by
  decide

/-- C9 (amended). On a connection with a dedicated owning thread, every backend method
that a public operation (`start`, `suspend`, `stop`, `getBusSettings`, `setBusSettings`,
`sendFrame`, `sendFrames`, `setFilters`) causes to run is executed on the owning thread,
whatever the calling thread, with one exception: `stop()` called while the connection is
not started runs `piStop` directly on the calling thread. (An operation that does not
return was called off the owning thread while that thread was not running.) -/
theorem hooks_thread_affinity {σ CANBus CANFrame : Type}
    (s : CANConnection σ CANBus CANFrame) (t : Thread) (hs : s.mThread_p = some t)
    (op : Op CANBus CANFrame) (cur : Thread) :
    (∀ s', op.run s cur = some s' →
      ∃ added, s'.trace = s.trace ++ added ∧
        ∀ e ∈ added, e.thread = t ∨
          (op.isStop = true ∧ s.mStarted = false ∧ e.call.isStop = true ∧ e.thread = cur)) ∧
    (op.run s cur = none → s.offThread cur = true ∧ s.threadState ≠ .running) := by
  have ht : s.owningThread cur = t := owningThread_of_thread s cur t hs
  have lift : ∀ o : Option (CANConnection σ CANBus CANFrame),
      ((∀ s', o = some s' → ∃ added, s'.trace = s.trace ++ added ∧
          ∀ e ∈ added, e.thread = s.owningThread cur) ∧
        (o = none → s.offThread cur = true ∧ s.threadState ≠ .running)) →
      ((∀ s', o = some s' → ∃ added, s'.trace = s.trace ++ added ∧
          ∀ e ∈ added, e.thread = t ∨
            (op.isStop = true ∧ s.mStarted = false ∧ e.call.isStop = true ∧
              e.thread = cur)) ∧
        (o = none → s.offThread cur = true ∧ s.threadState ≠ .running)) := by
    intro o ⟨h1, h2⟩
    refine ⟨fun s' hs' => ?_, h2⟩
    obtain ⟨added, ha, hb⟩ := h1 s' hs'
    exact ⟨added, ha, fun e he => Or.inl (by rw [hb e he, ht])⟩
  cases op with
  | start =>
    refine ⟨fun s' hs' => ?_, fun hn => absurd hn (by simp [Op.run])⟩
    simp only [Op.run, Option.some.injEq] at hs'
    rw [← hs']
    simp only [CANConnection.start]
    cases ho : s.offThread cur with
    | true => exact ⟨[], by simp, by simp⟩
    | false =>
      have hc : s.owningThread cur = cur := owningThread_of_not_offThread s cur ho
      refine ⟨[⟨.piStarted, cur⟩], by simp [piStarted, enter], ?_⟩
      intro e he
      simp at he
      left; rw [he]; simp only []; rw [← hc, ht]
  | suspend p =>
    apply lift
    have := dispatch_threads s cur (fun s1 th => s1.piSuspend th p) id
      (fun th => ⟨[⟨.piSuspend p, th⟩], by simp [piSuspend, enter], by simp⟩)
    simpa [Op.run, CANConnection.suspend] using this
  | stop =>
    simp only [Op.run, CANConnection.stop]
    cases ho : s.offThread cur with
    | true =>
      cases hst : s.mStarted with
      | true =>
        cases hf : s.threadState with
        | finished =>
          refine ⟨fun s' hs' => ?_, fun hn => ?_⟩
          · simp [isFinished, hf] at hs'
            rw [← hs']
            exact ⟨[], by simp, by simp⟩
          · simp [isFinished, hf] at hn
        | running =>
          refine ⟨fun s' hs' => ?_, fun hn => ?_⟩
          · simp [isFinished, hf, invokeMethod] at hs'
            rw [← hs']
            exact ⟨[⟨.piStop, t⟩], by simp [piStop, enter, ht], by simp⟩
          · simp [isFinished, hf, invokeMethod] at hn
        | notStarted =>
          refine ⟨fun s' hs' => ?_, fun _ => ⟨rfl, by simp⟩⟩
          simp [isFinished, hf, invokeMethod] at hs'
      | false =>
        refine ⟨fun s' hs' => ?_, fun hn => ?_⟩
        · simp at hs'
          rw [← hs']
          refine ⟨[⟨.piStop, cur⟩], by simp [piStop, enter], ?_⟩
          intro e he
          simp at he
          right; rw [he]; exact ⟨rfl, rfl, rfl, rfl⟩
        · simp at hn
    | false =>
      have hc : s.owningThread cur = cur := owningThread_of_not_offThread s cur ho
      refine ⟨fun s' hs' => ?_, fun hn => ?_⟩
      · simp at hs'
        rw [← hs']
        refine ⟨[⟨.piStop, cur⟩], by simp [piStop, enter], ?_⟩
        intro e he
        simp at he
        left; rw [he]; simp only []; rw [← hc, ht]
      · simp at hn
  | getBusSettings i b =>
    apply lift
    exact dispatch_threads s cur (fun s1 th => s1.piGetBusSettings th i b) (fun r => r.2)
      (fun th => ⟨[⟨.piGetBusSettings i (s.hooks.piGetBusSettings i b s.backend).1.1, th⟩],
        by simp [piGetBusSettings, enter], by simp⟩)
  | setBusSettings i b =>
    apply lift
    have := dispatch_threads s cur (fun s1 th => s1.piSetBusSettings th i b) id
      (fun th => ⟨[⟨.piSetBusSettings i b, th⟩], by simp [piSetBusSettings, enter], by simp⟩)
    simpa [Op.run, CANConnection.setBusSettings] using this
  | sendFrame f =>
    apply lift
    exact dispatch_threads s cur (fun s1 th => s1.piSendFrame th f) (fun r => r.2)
      (fun th => ⟨[⟨.piSendFrame f (s.hooks.piSendFrame f s.backend).1, th⟩],
        by simp [piSendFrame, enter], by simp⟩)
  | sendFrames fs =>
    apply lift
    exact dispatch_threads s cur (fun s1 th => s1.piSendFrames th fs) (fun r => r.2)
      (fun th => piSendFrames_threads s th fs)
  | setFilters i fl ex =>
    apply lift
    exact dispatch_threads s cur (setFiltersBody i fl ex) (fun r => r.2)
      (fun th => setFiltersBody_threads s th i fl ex)

/-- C9 (amended) at a concrete input: `sendFrame(5)` called from thread 0 on a started
connection whose owning thread is 7. -/
theorem hooks_thread_affinity_witness :
    running.mThread_p = some 7 ∧
    ∃ s', (Op.sendFrame 5 : Op Nat Nat).run running 0 = some s' ∧
      ∃ added, s'.trace = running.trace ++ added ∧
        ∀ e ∈ added, e.thread = 7 ∨
          ((Op.sendFrame 5 : Op Nat Nat).isStop = true ∧ running.mStarted = false ∧
            e.call.isStop = true ∧ e.thread = 0) :=
  ⟨rfl, _, rfl, (hooks_thread_affinity running 7 rfl (Op.sendFrame 5) 0).1 _ rfl⟩

end SavvyCAN
